import Mathlib

/-!
Verification of the group-availability calendar core.

Shallow embedding notes:
- JS objects used as string-keyed dictionaries are modeled as functions of type
  String to Option values; object spread plus key assignment becomes a pointwise
  functional update.
- A JS Date value is modeled by its calendar day number: the integer number of days
  between it and 1970-01-01. Time-of-day, timezones and the legacy two-digit-year
  constructor rule are outside the model. The component accessors getFullYear,
  getMonth (0-based), getDate and the constructor new Date(y, m, d) are modeled by
  proleptic-Gregorian integer arithmetic, written in division form so that the
  round-trip between day numbers and civil components is provable; concrete
  evaluation examples below pin the model to known calendar dates.
- Asynchronous remote calls are modeled by their value-level effect: the remote
  result is passed in as data, and the ordered list of observable effects of the
  handler is returned explicitly.
-/

set_option maxHeartbeats 1000000

/-! Availability model, translated from src/unnamed/part_000 lines 52-77. -/

inductive Status where
  | available
  | unavailable
deriving DecidableEq, Repr

abbrev PerDayMap := String → Option Bool

abbrev Availability := String → Option PerDayMap

/-- Functional update of a string-keyed dictionary: models obj[k] = v on a copy. -/
def objSet {α : Type} (o : String → Option α) (k : String) (v : α) : String → Option α :=
  fun q => if q = k then some v else o q

/-- Translation of getStatusFromAvailability (part_000 lines 65-69). -/
def getStatusFromAvailability (availability : Availability) (personId dateStr : String) :
    Status :=
  match availability personId with
  | none => Status.available
  | some per =>
    match per dateStr with
    | none => Status.available
    | some b => if b = true then Status.available else Status.unavailable

/-- Translation of setStatusInAvailability (part_000 lines 71-77). -/
def setStatusInAvailability (availability : Availability) (personId dateStr : String)
    (nextStatus : Status) : Availability :=
  let per : PerDayMap :=
    match availability personId with
    | none => fun _ => none
    | some per => per
  objSet availability personId (objSet per dateStr (decide (nextStatus = Status.available)))

/-- Combined two-level lookup: the boolean stored for (personId, dateStr), if any. -/
def lookup2 (availability : Availability) (personId dateStr : String) : Option Bool :=
  match availability personId with
  | none => none
  | some per => per dateStr

/-! Second copy of the availability model, translated from src/src/App.tsx lines 77-89,
    kept verbatim and separate so the two translations can be compared. -/

namespace AppTsx

def objSet {α : Type} (o : String → Option α) (k : String) (v : α) : String → Option α :=
  fun q => if q = k then some v else o q

def getStatusFromAvailability (availability : Availability) (personId dateStr : String) :
    Status :=
  match availability personId with
  | none => Status.available
  | some per =>
    match per dateStr with
    | none => Status.available
    | some b => if b = true then Status.available else Status.unavailable

def setStatusInAvailability (availability : Availability) (personId dateStr : String)
    (nextStatus : Status) : Availability :=
  let per : PerDayMap :=
    match availability personId with
    | none => fun _ => none
    | some per => per
  objSet availability personId (objSet per dateStr (decide (nextStatus = Status.available)))

end AppTsx

/-! Model of the JS Date civil calendar. A date is its day number (days since
1970-01-01). The component extraction walks the 400-year Gregorian cycle: era of
146097 days, century, 4-year quad, year, then a March-based month split, written
with integer division so the facts below are in linear-arithmetic range. -/

namespace Calendar

def era (t : Int) : Int := (t + 719468) / 146097

def doe (t : Int) : Int := (t + 719468) - 146097 * era t

def cent (t : Int) : Int := if doe t = 146096 then 3 else doe t / 36524

def doc (t : Int) : Int := doe t - 36524 * cent t

def quad (t : Int) : Int := doc t / 1461

def doq (t : Int) : Int := doc t - 1461 * quad t

def y1 (t : Int) : Int := if doq t = 1460 then 3 else doq t / 365

def yoe (t : Int) : Int := 100 * cent t + 4 * quad t + y1 t

def doy (t : Int) : Int := doe t - (365 * yoe t + yoe t / 4 - yoe t / 100)

def mp (t : Int) : Int := (5 * doy t + 2) / 153

def dayInMonth (t : Int) : Int := doy t - (153 * mp t + 2) / 5 + 1

def month0 (t : Int) : Int := mp t + 2 - 12 * (mp t / 10)

def yearOf (t : Int) : Int := yoe t + 400 * era t + mp t / 10

def marchYearN (ym mn : Int) : Int := ym - 1 + (mn + 10) / 12

def marchMonthN (mn : Int) : Int := mn + 10 - 12 * ((mn + 10) / 12)

def era2 (ym mn : Int) : Int := marchYearN ym mn / 400

def yoe2 (ym mn : Int) : Int := marchYearN ym mn - 400 * era2 ym mn

def daysOfYMD (ym mn d : Int) : Int :=
  146097 * era2 ym mn +
    (365 * yoe2 ym mn + yoe2 ym mn / 4 - yoe2 ym mn / 100 + (153 * marchMonthN mn + 2) / 5 +
      (d - 1)) - 719468

end Calendar

/-- Model of Date.prototype.getFullYear. -/
def getFullYear (t : Int) : Int := Calendar.yearOf t

/-- Model of Date.prototype.getMonth (0 = January .. 11 = December). -/
def getMonth (t : Int) : Int := Calendar.month0 t

/-- Model of Date.prototype.getDate (day of month, 1-based). -/
def getDate (t : Int) : Int := Calendar.dayInMonth t

/-- Model of Date.prototype.getDay (0 = Sunday .. 6 = Saturday); day 0 was a Thursday. -/
def getDay (t : Int) : Int := (t + 4) % 7

/-- Model of new Date(y, m, d): the month is normalized into the year, then the civil
triple is converted to a day number. -/
def mkDate (y m d : Int) : Int := Calendar.daysOfYMD (y + m / 12) (m - 12 * (m / 12)) d

/-! Date and grid utilities, translated from src/unnamed/part_000 lines 17-31. -/

/-- Translation of pad2 (String(n).padStart(2, "0")). -/
def pad2 (n : Int) : String :=
  let s := toString n
  if s.length < 2 then "0" ++ s else s

/-- Translation of isoDate. -/
def isoDate (t : Int) : String :=
  toString (getFullYear t) ++ "-" ++ pad2 (getMonth t + 1) ++ "-" ++ pad2 (getDate t)

/-- Translation of startOfMonth: new Date(y, m, 1). -/
def startOfMonth (t : Int) : Int := mkDate (getFullYear t) (getMonth t) 1

/-- Translation of endOfMonth: new Date(y, m + 1, 0). -/
def endOfMonth (t : Int) : Int := mkDate (getFullYear t) (getMonth t + 1) 0

/-- Translation of addDays: new Date(y, m, date + n). -/
def addDays (t n : Int) : Int := mkDate (getFullYear t) (getMonth t) (getDate t + n)

/-- Translation of sameDay: componentwise comparison of year, month and day. -/
def sameDay (a b : Int) : Bool :=
  getFullYear a == getFullYear b && (getMonth a == getMonth b) && (getDate a == getDate b)

/-- Translation of mondayFirstDow: remap of getDay to 0 = Monday .. 6 = Sunday. -/
def mondayFirstDow (t : Int) : Int := (getDay t + 6) % 7

/-! The month grid, translated from src/unnamed/part_000 lines 273-290. -/

structure Cell where
  date : Int
  inMonth : Bool
  isToday : Bool
deriving DecidableEq, Repr

structure MonthGrid where
  start : Int
  stop : Int
  cells : List Cell
deriving DecidableEq, Repr

/-- Translation of the monthDays memo; the stop field models the source field named end. -/
def monthDays (cursor today : Int) : MonthGrid :=
  let start := startOfMonth cursor
  let firstCell := addDays start (-(mondayFirstDow start))
  { start := start
    stop := endOfMonth cursor
    cells := (List.range 42).map (fun i : Nat =>
      let d := addDays firstCell (i : Int)
      { date := d
        inMonth := getMonth d == getMonth cursor
        isToday := sameDay d today }) }

/-- A person row as fetched from the people store. -/
structure Person where
  id : String
  name : String
  color : String
deriving DecidableEq, Repr

/-- Translation of the onlyUnavailable button handler (part_000 lines 479-496): the set
of ids of people having some unavailable day among the visible cells, scanning each
person's days in cell order and stopping at the first hit. -/
def idsWithUnavailable (people : List Person) (cells : List Cell)
    (availability : Availability) : List String :=
  (people.filter (fun p => cells.any (fun cell =>
    decide (getStatusFromAvailability availability p.id (isoDate cell.date) =
      Status.unavailable)))).map (fun p => p.id)

/-- Translation of onDayClick (part_000 lines 393-399) restricted to its effect on the
local availability state: a no-op without a chosen current user, otherwise the toggle
write for exactly the current user at the clicked day. -/
def onDayClick (currentUserId : String) (availability : Availability) (dateObj : Int) :
    Availability :=
  if currentUserId = "" then availability
  else
    let dStr := isoDate dateObj
    let cur := getStatusFromAvailability availability currentUserId dStr
    let next : Status :=
      if cur = Status.available then Status.unavailable else Status.available
    setStatusInAvailability availability currentUserId dStr next

/-- Observable effects of the async setStatus handler, in execution order. -/
inductive RemoteEffect where
  | localWrite
  | upsertWrite
  | logError
  | refresh
deriving DecidableEq, Repr

/-- Translation of the async setStatus handler (part_000 lines 369-388): the optimistic
local write happens first, then the upsert; on upsert error the handler logs and
refreshes and returns early, on success it refreshes. The remote outcome is passed in as
upsertError; the result is the optimistic local state and the ordered effect trace. -/
def setStatusRemote (availability : Availability) (personId dateStr : String)
    (nextStatus : Status) (upsertError : Bool) : Availability × List RemoteEffect :=
  (setStatusInAvailability availability personId dateStr nextStatus,
    if upsertError then
      [RemoteEffect.localWrite, RemoteEffect.upsertWrite, RemoteEffect.logError,
        RemoteEffect.refresh]
    else
      [RemoteEffect.localWrite, RemoteEffect.upsertWrite, RemoteEffect.refresh])

/-- An availability row as returned by the range query. -/
structure AvailRow where
  person_id : String
  day : String
  available : Bool
deriving DecidableEq, Repr

/-- Translation of one iteration of the row loop of refreshAvailability (part_000
lines 310-316). -/
def applyRow (next : Availability) (row : AvailRow) : Availability :=
  let per : PerDayMap :=
    match next row.person_id with
    | none => fun _ => none
    | some per => per
  objSet next row.person_id (objSet per row.day row.available)

/-- The mapping built from the query rows, starting from the empty object. -/
def buildAvailability (rows : List AvailRow) : Availability :=
  rows.foldl applyRow (fun _ => none)

/-- Translation of refreshAvailability (part_000 lines 292-319): on query error the
state is left unchanged (early return); on success the whole in-memory mapping is
replaced by the one built from the returned rows. -/
def refreshApply (prev : Availability) (result : Option (List AvailRow)) : Availability :=
  match result with
  | none => prev
  | some rows => buildAvailability rows

/-- Specification-side helper: the stored value of the last row matching (p, d). -/
def lastRowValue (rows : List AvailRow) (p d : String) : Option Bool :=
  rows.foldl (fun o r => if p = r.person_id ∧ d = r.day then some r.available else o) none

/-- Status read off an optional stored boolean, defaulting to available. -/
def statusOfCell (o : Option Bool) : Status :=
  match o with
  | none => Status.available
  | some b => if b = true then Status.available else Status.unavailable

/-- Reading back the key just written returns the status just written. -/
theorem getStatus_set_same (a : Availability) (p d : String) (s : Status) :
    getStatusFromAvailability (setStatusInAvailability a p d s) p d = s := by
  cases s <;> simp [getStatusFromAvailability, setStatusInAvailability, objSet]

/-- Reading any other key is unaffected by a write. -/
theorem getStatus_set_ne (a : Availability) (p d : String) (s : Status) (p2 d2 : String)
    (h : (p2, d2) ≠ (p, d)) :
    getStatusFromAvailability (setStatusInAvailability a p d s) p2 d2 =
      getStatusFromAvailability a p2 d2 := by
  unfold getStatusFromAvailability setStatusInAvailability objSet
  by_cases hp : p2 = p
  · subst hp
    have hd : d2 ≠ d := by
      intro hd
      exact h (by rw [hd])
    cases h2 : a p2 <;> simp [h2, hd]
  · simp [hp]

/-- C1: getStatus returns unavailable exactly when the mapping stores false for that
person and day; a missing person, a missing day under a present person, and an explicit
true entry all give available, so ids and days never written read as available. -/
theorem getStatus_unavailable_iff (availability : Availability) (personId dateStr : String) :
    (getStatusFromAvailability availability personId dateStr = Status.unavailable ↔
      ∃ per, availability personId = some per ∧ per dateStr = some false) ∧
    (availability personId = none →
      getStatusFromAvailability availability personId dateStr = Status.available) ∧
    (∀ per, availability personId = some per → per dateStr = none →
      getStatusFromAvailability availability personId dateStr = Status.available) ∧
    (∀ per, availability personId = some per → per dateStr = some true →
      getStatusFromAvailability availability personId dateStr = Status.available) := by
  unfold getStatusFromAvailability
  rcases h : availability personId with _ | per
  · simp [h]
  · rcases h2 : per dateStr with _ | b
    · simp [h, h2]
    · cases b <;> simp [h, h2]

/-- Witness for C1 at a concrete never-written input. -/
theorem getStatus_unavailable_iff_witness :
    getStatusFromAvailability (fun _ => none) "p1" "2026-02-01" = Status.available :=
  (getStatus_unavailable_iff (fun _ => none) "p1" "2026-02-01").2.1 rfl

/-- C2: writing unavailable makes getStatus read unavailable at the same key, and a
subsequent write of available restores available (round-trip law). -/
theorem set_get_roundtrip (a : Availability) (p d : String) :
    getStatusFromAvailability (setStatusInAvailability a p d Status.unavailable) p d =
      Status.unavailable ∧
    getStatusFromAvailability
        (setStatusInAvailability (setStatusInAvailability a p d Status.unavailable) p d
          Status.available) p d = Status.available := by
  constructor <;> simp [getStatusFromAvailability, setStatusInAvailability, objSet]

/-- C3: setStatus on (p, d) leaves the status of every other (person, day) pair
unchanged. -/
theorem setStatus_frame (a : Availability) (p d : String) (s : Status) (p2 d2 : String)
    (h : (p2, d2) ≠ (p, d)) :
    getStatusFromAvailability (setStatusInAvailability a p d s) p2 d2 =
      getStatusFromAvailability a p2 d2 :=
  getStatus_set_ne a p d s p2 d2 h

/-- Witness for C3: a write for one person does not change another person's status. -/
theorem setStatus_frame_witness :
    getStatusFromAvailability
        (setStatusInAvailability (fun _ => none) "p1" "2026-02-01" Status.unavailable)
        "p2" "2026-02-01" = Status.available :=
  (setStatus_frame (fun _ => none) "p1" "2026-02-01" Status.unavailable "p2" "2026-02-01"
    (by decide)).trans rfl

/-- C10: the availability-model functions translated from src/src/App.tsx agree
extensionally with the ones translated from src/unnamed/part_000 on every mapping,
person id, day string and status. -/
theorem appTsx_availability_model_equiv (a : Availability) (p d : String) :
    AppTsx.getStatusFromAvailability a p d = getStatusFromAvailability a p d ∧
    ∀ s : Status, AppTsx.setStatusInAvailability a p d s = setStatusInAvailability a p d s :=
  ⟨rfl, fun _ => rfl⟩

/-! Calendar model facts: the civil extraction round-trips with the constructor, and
the extracted components lie in calendar range. -/

theorem calendar_core (t : Int) :
    mkDate (getFullYear t) (getMonth t) (getDate t) = t ∧
    0 ≤ getMonth t ∧ getMonth t ≤ 11 ∧ 1 ≤ getDate t ∧ getDate t ≤ 31 := by
  have h1 : Calendar.era t = (t + 719468) / 146097 := rfl
  have h2 : Calendar.doe t = (t + 719468) - 146097 * Calendar.era t := rfl
  have h3 : Calendar.cent t =
      (if Calendar.doe t = 146096 then 3 else Calendar.doe t / 36524) := rfl
  have h4 : Calendar.doc t = Calendar.doe t - 36524 * Calendar.cent t := rfl
  have h5 : Calendar.quad t = Calendar.doc t / 1461 := rfl
  have h6 : Calendar.doq t = Calendar.doc t - 1461 * Calendar.quad t := rfl
  have h7 : Calendar.y1 t =
      (if Calendar.doq t = 1460 then 3 else Calendar.doq t / 365) := rfl
  have h8 : Calendar.yoe t = 100 * Calendar.cent t + 4 * Calendar.quad t + Calendar.y1 t := rfl
  have h9 : Calendar.doy t =
      Calendar.doe t - (365 * Calendar.yoe t + Calendar.yoe t / 4 - Calendar.yoe t / 100) := rfl
  have h10 : Calendar.mp t = (5 * Calendar.doy t + 2) / 153 := rfl
  have h11 : Calendar.dayInMonth t = Calendar.doy t - (153 * Calendar.mp t + 2) / 5 + 1 := rfl
  have h12 : Calendar.month0 t = Calendar.mp t + 2 - 12 * (Calendar.mp t / 10) := rfl
  have h13 : Calendar.yearOf t =
      Calendar.yoe t + 400 * Calendar.era t + Calendar.mp t / 10 := rfl
  have hgf : getFullYear t = Calendar.yearOf t := rfl
  have hgm : getMonth t = Calendar.month0 t := rfl
  have hgd : getDate t = Calendar.dayInMonth t := rfl
  have hbe : 0 ≤ Calendar.doe t ∧ Calendar.doe t ≤ 146096 := by omega
  have hcent : 0 ≤ Calendar.cent t ∧ Calendar.cent t ≤ 3 ∧
      0 ≤ Calendar.doc t ∧ Calendar.doc t ≤ 36524 := by omega
  have hquad : 0 ≤ Calendar.quad t ∧ Calendar.quad t ≤ 24 ∧
      0 ≤ Calendar.doq t ∧ Calendar.doq t ≤ 1460 := by omega
  have hy1 : 0 ≤ Calendar.y1 t ∧ Calendar.y1 t ≤ 3 ∧
      365 * Calendar.y1 t ≤ Calendar.doq t ∧
      Calendar.doq t - 365 * Calendar.y1 t ≤ 365 := by omega
  have hyoe : 0 ≤ Calendar.yoe t ∧ Calendar.yoe t ≤ 399 := by omega
  have hdiv4 : Calendar.yoe t / 4 = 25 * Calendar.cent t + Calendar.quad t := by omega
  have hdiv100 : Calendar.yoe t / 100 = Calendar.cent t := by omega
  have hb : 0 ≤ Calendar.doy t ∧ Calendar.doy t ≤ 365 := by omega
  have hmp : 0 ≤ Calendar.mp t ∧ Calendar.mp t ≤ 11 := by omega
  have hM0 : Calendar.month0 t / 12 = 0 := by omega
  have hgmm : Calendar.marchMonthN (Calendar.month0 t) = Calendar.mp t := by
    have : Calendar.marchMonthN (Calendar.month0 t) =
        Calendar.month0 t + 10 - 12 * ((Calendar.month0 t + 10) / 12) := rfl
    omega
  have hgy : Calendar.marchYearN (Calendar.yearOf t) (Calendar.month0 t) =
      400 * Calendar.era t + Calendar.yoe t := by
    have : Calendar.marchYearN (Calendar.yearOf t) (Calendar.month0 t) =
        Calendar.yearOf t - 1 + (Calendar.month0 t + 10) / 12 := rfl
    omega
  have he2 : Calendar.era2 (Calendar.yearOf t) (Calendar.month0 t) = Calendar.era t := by
    have : Calendar.era2 (Calendar.yearOf t) (Calendar.month0 t) =
        Calendar.marchYearN (Calendar.yearOf t) (Calendar.month0 t) / 400 := rfl
    omega
  have hye : Calendar.yoe2 (Calendar.yearOf t) (Calendar.month0 t) = Calendar.yoe t := by
    have : Calendar.yoe2 (Calendar.yearOf t) (Calendar.month0 t) =
        Calendar.marchYearN (Calendar.yearOf t) (Calendar.month0 t) -
          400 * Calendar.era2 (Calendar.yearOf t) (Calendar.month0 t) := rfl
    omega
  refine ⟨?_, by omega, by omega, by omega, by omega⟩
  show Calendar.daysOfYMD (getFullYear t + getMonth t / 12)
      (getMonth t - 12 * (getMonth t / 12)) (getDate t) = t
  unfold getFullYear getMonth getDate
  rw [hM0, mul_zero, sub_zero, add_zero]
  unfold Calendar.daysOfYMD
  rw [he2, hye, hgmm]
  omega

theorem mkDate_add (y m d n : Int) : mkDate y m (d + n) = mkDate y m d + n := by
  unfold mkDate Calendar.daysOfYMD
  omega

theorem addDays_eq (t n : Int) : addDays t n = t + n := by
  unfold addDays
  rw [mkDate_add, (calendar_core t).1]

theorem startOfMonth_eq (t : Int) : startOfMonth t = t - (getDate t - 1) := by
  unfold startOfMonth
  have h1 : (1 : Int) = getDate t + (1 - getDate t) := by ring
  rw [h1, mkDate_add, (calendar_core t).1]
  ring

theorem sameDay_iff (a b : Int) : sameDay a b = true ↔ a = b := by
  unfold sameDay
  constructor
  · intro h
    simp only [Bool.and_eq_true, beq_iff_eq] at h
    obtain ⟨⟨hy, hm⟩, hd⟩ := h
    rw [← (calendar_core a).1, hy, hm, hd, (calendar_core b).1]
  · intro h
    subst h
    simp

example : mkDate 2026 1 1 = 20485 := by decide

example : getFullYear 20485 = 2026 ∧ getMonth 20485 = 1 ∧ getDate 20485 = 1 ∧
    getDay 20485 = 0 := by decide

example : mkDate 2026 0 26 = 20479 ∧ getDay 20479 = 1 := by decide

example : mkDate 2000 1 29 = 11016 ∧ getDate 11016 = 29 ∧ getMonth 11016 = 1 := by decide

example : mkDate 1900 1 28 = -25509 ∧ mkDate 1900 1 29 = mkDate 1900 2 1 := by decide

example : mkDate 2024 1 29 = 19782 := by decide

example : isoDate 0 = "1970-01-01" := by decide

example : isoDate 20485 = "2026-02-01" := by decide

theorem countP_beq_range (n k : Nat) (h : k < n) :
    List.countP (fun i => i == k) (List.range n) = 1 := by
  induction n with
  | zero => exact absurd h (Nat.not_lt_zero k)
  | succ n ih =>
    rw [List.range_succ, List.countP_append]
    rcases Nat.lt_or_ge k n with hk | hk
    · rw [ih hk]
      have h0 : List.countP (fun i => i == k) [n] = 0 := by
        have : n ≠ k := by omega
        simp [List.countP_cons, this]
      rw [h0]
    · have hk2 : k = n := by omega
      subst hk2
      have h0 : List.countP (fun i => i == k) (List.range k) = 0 := by
        rw [List.countP_eq_zero]
        intro i hi
        have := List.mem_range.mp hi
        simp only [beq_iff_eq]
        omega
      rw [h0]
      simp [List.countP_cons]

/-- C4: for every cursor date and today the month grid has exactly 42 cells, its first
cell is a Monday on or before the first day of the cursor's month, consecutive cells
carry consecutive calendar days, and the cell at index 7 is again a Monday. -/
theorem monthDays_grid_spec (cursor today : Int) :
    ∃ first : Int,
      (monthDays cursor today).cells.length = 42 ∧
      (monthDays cursor today).cells.map Cell.date =
        (List.range 42).map (fun i : Nat => first + (i : Int)) ∧
      getDay first = 1 ∧
      first ≤ startOfMonth cursor ∧ startOfMonth cursor < first + 7 ∧
      ((monthDays cursor today).cells.map Cell.date)[7]? = some (first + 7) ∧
      getDay (first + 7) = 1 := by
  have hmap : (monthDays cursor today).cells.map Cell.date =
      (List.range 42).map
        (fun i : Nat => startOfMonth cursor - mondayFirstDow (startOfMonth cursor) + (i : Int)) := by
    simp only [monthDays]
    rw [List.map_map]
    refine List.map_congr_left ?_
    intro i _
    show addDays (addDays (startOfMonth cursor) (-(mondayFirstDow (startOfMonth cursor))))
        (i : Int) = _
    rw [addDays_eq, addDays_eq]
    ring
  refine ⟨startOfMonth cursor - mondayFirstDow (startOfMonth cursor), ?_, hmap, ?_, ?_, ?_, ?_, ?_⟩
  · have hlen := congrArg List.length hmap
    rwa [List.length_map, List.length_map, List.length_range] at hlen
  · unfold mondayFirstDow getDay
    omega
  · unfold mondayFirstDow getDay
    omega
  · unfold mondayFirstDow getDay
    omega
  · rw [hmap, List.getElem?_map, List.getElem?_range (by norm_num)]
    norm_num
  · unfold mondayFirstDow getDay
    omega

/-- C9: the isToday flag is set on exactly one of the 42 cells when today falls in the
42-day window starting at the grid's first cell, and on none otherwise. -/
theorem monthDays_isToday_count (cursor today : Int) :
    ((monthDays cursor today).cells.filter (fun c => c.isToday)).length =
      if startOfMonth cursor - mondayFirstDow (startOfMonth cursor) ≤ today ∧
          today < startOfMonth cursor - mondayFirstDow (startOfMonth cursor) + 42
      then 1 else 0 := by
  have hfilter : ((monthDays cursor today).cells.filter (fun c => c.isToday)).length =
      List.countP
        (fun i : Nat => sameDay
          (startOfMonth cursor - mondayFirstDow (startOfMonth cursor) + (i : Int)) today)
        (List.range 42) := by
    rw [← List.countP_eq_length_filter]
    simp only [monthDays]
    rw [List.countP_map]
    refine List.countP_congr ?_
    intro i _
    show (sameDay (addDays (addDays (startOfMonth cursor)
        (-(mondayFirstDow (startOfMonth cursor)))) (i : Int)) today) = true ↔ _
    rw [addDays_eq, addDays_eq]
    have harg : startOfMonth cursor + -(mondayFirstDow (startOfMonth cursor)) + (i : Int) =
        startOfMonth cursor - mondayFirstDow (startOfMonth cursor) + (i : Int) := by ring
    rw [harg]
  rw [hfilter]
  by_cases hwin : startOfMonth cursor - mondayFirstDow (startOfMonth cursor) ≤ today ∧
      today < startOfMonth cursor - mondayFirstDow (startOfMonth cursor) + 42
  · rw [if_pos hwin]
    obtain ⟨h1, h2⟩ := hwin
    obtain ⟨k, hk42, hkeq⟩ : ∃ k : Nat, k < 42 ∧
        today = startOfMonth cursor - mondayFirstDow (startOfMonth cursor) + (k : Int) :=
      ⟨(today - (startOfMonth cursor - mondayFirstDow (startOfMonth cursor))).toNat,
        by omega, by omega⟩
    rw [List.countP_congr (q := fun i => i == k) ?_]
    · exact countP_beq_range 42 k hk42
    · intro i hi
      rw [sameDay_iff, beq_iff_eq]
      omega
  · rw [if_neg hwin]
    rw [List.countP_eq_zero]
    intro i hi
    rw [sameDay_iff]
    intro hEq
    have hi42 := List.mem_range.mp hi
    exact hwin (by omega)

/-- C5: in onlyUnavailable mode the recomputed selection contains exactly the ids of
known people with at least one unavailable day among the visible cell dates. -/
theorem onlyUnavailable_selection_spec (people : List Person) (cells : List Cell)
    (availability : Availability) (s : String) :
    s ∈ idsWithUnavailable people cells availability ↔
      ∃ p ∈ people, p.id = s ∧ ∃ cell ∈ cells,
        getStatusFromAvailability availability p.id (isoDate cell.date) =
          Status.unavailable := by
  unfold idsWithUnavailable
  simp only [List.mem_map, List.mem_filter, List.any_eq_true, decide_eq_true_eq]
  constructor
  · rintro ⟨p, ⟨hp, c, hc, hst⟩, hid⟩
    exact ⟨p, hp, hid, c, hc, hst⟩
  · rintro ⟨p, hp, hid, c, hc, hst⟩
    exact ⟨p, ⟨hp, c, hc, hst⟩, hid⟩

/-- Scenario check for C5: person A has one unavailable day in the visible window of
February 2026, person B has none, so the selection becomes exactly A. -/
example :
    idsWithUnavailable
      [{ id := "A", name := "Alice", color := "#111111" },
       { id := "B", name := "Ben", color := "#222222" }]
      (monthDays 20485 20485).cells
      (setStatusInAvailability (fun _ => none) "A" "2026-02-01" Status.unavailable) =
      ["A"] := by decide

/-- C6: a day click is a no-op on availability while no current user is chosen; with a
chosen current user it flips exactly that user's status at the clicked day and leaves
every other (person, day) pair unchanged. -/
theorem onDayClick_spec (currentUserId : String) (availability : Availability)
    (dateObj : Int) :
    (currentUserId = "" → onDayClick currentUserId availability dateObj = availability) ∧
    (currentUserId ≠ "" →
      getStatusFromAvailability (onDayClick currentUserId availability dateObj)
          currentUserId (isoDate dateObj) =
        (if getStatusFromAvailability availability currentUserId (isoDate dateObj) =
            Status.available then Status.unavailable else Status.available) ∧
      ∀ p d : String, (p, d) ≠ (currentUserId, isoDate dateObj) →
        getStatusFromAvailability (onDayClick currentUserId availability dateObj) p d =
          getStatusFromAvailability availability p d) := by
  constructor
  · intro h
    unfold onDayClick
    rw [if_pos h]
  · intro h
    constructor
    · simp only [onDayClick, if_neg h]
      exact getStatus_set_same availability currentUserId (isoDate dateObj) _
    · intro p d hne
      simp only [onDayClick, if_neg h]
      exact getStatus_set_ne availability currentUserId (isoDate dateObj) _ p d hne

/-- Witness for C6: both the gated no-op and a concrete flip. -/
theorem onDayClick_spec_witness :
    onDayClick "" (fun _ => none) 0 = (fun _ => none) ∧
    getStatusFromAvailability (onDayClick "p1" (fun _ => none) 0) "p1" (isoDate 0) =
      Status.unavailable := by
  constructor
  · exact (onDayClick_spec "" (fun _ => none) 0).1 rfl
  · rw [((onDayClick_spec "p1" (fun _ => none) 0).2 (by decide)).1]
    decide

/-- C7: the remote setStatus handler performs the optimistic write first and ends with a
reconciling refresh on both the success and the failure path; the failure path logs. -/
theorem setStatusRemote_always_refreshes (availability : Availability)
    (personId dateStr : String) (nextStatus : Status) (upsertError : Bool) :
    (setStatusRemote availability personId dateStr nextStatus upsertError).2.getLast? =
      some RemoteEffect.refresh ∧
    (setStatusRemote availability personId dateStr nextStatus upsertError).2.head? =
      some RemoteEffect.localWrite ∧
    (upsertError = true →
      RemoteEffect.logError ∈
        (setStatusRemote availability personId dateStr nextStatus upsertError).2) ∧
    (setStatusRemote availability personId dateStr nextStatus upsertError).1 =
      setStatusInAvailability availability personId dateStr nextStatus := by
  cases upsertError <;> simp [setStatusRemote]

/-- Witness for C7: the failure path at a concrete input logs the error. -/
theorem setStatusRemote_always_refreshes_witness :
    RemoteEffect.logError ∈
      (setStatusRemote (fun _ => none) "p1" "2026-02-01" Status.unavailable true).2 :=
  (setStatusRemote_always_refreshes (fun _ => none) "p1" "2026-02-01" Status.unavailable
    true).2.2.1 rfl

theorem lookup2_applyRow (acc : Availability) (r : AvailRow) (p d : String) :
    lookup2 (applyRow acc r) p d =
      if p = r.person_id ∧ d = r.day then some r.available else lookup2 acc p d := by
  by_cases hp : p = r.person_id
  · subst hp
    by_cases hd : d = r.day
    · subst hd
      simp [applyRow, lookup2, objSet]
    · cases h2 : acc r.person_id <;> simp [applyRow, lookup2, objSet, h2, hd]
  · have hcond : ¬(p = r.person_id ∧ d = r.day) := fun hc => hp hc.1
    simp [applyRow, lookup2, objSet, hp, hcond]

theorem lookup2_foldl (rows : List AvailRow) (acc : Availability) (p d : String) :
    lookup2 (rows.foldl applyRow acc) p d =
      rows.foldl (fun o r => if p = r.person_id ∧ d = r.day then some r.available else o)
        (lookup2 acc p d) := by
  induction rows generalizing acc with
  | nil => rfl
  | cons r rs ih =>
    rw [List.foldl_cons, List.foldl_cons, ih, lookup2_applyRow]

theorem getStatus_eq_statusOfCell (a : Availability) (p d : String) :
    getStatusFromAvailability a p d = statusOfCell (lookup2 a p d) := by
  unfold getStatusFromAvailability lookup2 statusOfCell
  cases h : a p
  · rfl
  · rfl

/-- C8: a successful refresh replaces the whole in-memory mapping: every (person, day)
status after the refresh is determined only by the returned rows, with the last row for
a duplicated key winning and missing keys defaulting to available; the pre-refresh
state, including entries outside the queried range, is dropped. -/
theorem refreshAvailability_replaces (prev prev2 : Availability) (rows : List AvailRow)
    (p d : String) :
    getStatusFromAvailability (refreshApply prev (some rows)) p d =
      statusOfCell (lastRowValue rows p d) ∧
    refreshApply prev (some rows) = refreshApply prev2 (some rows) := by
  constructor
  · rw [getStatus_eq_statusOfCell]
    show statusOfCell (lookup2 (buildAvailability rows) p d) = _
    unfold buildAvailability lastRowValue
    rw [lookup2_foldl]
    rfl
  · rfl

/-- Dropped-entry check for C8: an entry present before the refresh but absent from the
returned rows reads as available afterwards. -/
example :
    getStatusFromAvailability
      (refreshApply
        (setStatusInAvailability (fun _ => none) "p1" "2025-12-01" Status.unavailable)
        (some [])) "p1" "2025-12-01" = Status.available := by decide

/-- Last-row-wins check for C8: two rows for the same key, the later one wins. -/
example :
    getStatusFromAvailability
      (refreshApply (fun _ => none)
        (some [{ person_id := "p1", day := "2026-02-01", available := false },
               { person_id := "p1", day := "2026-02-01", available := true }]))
      "p1" "2026-02-01" = Status.available := by decide
